import Mathlib

/-!
Shallow embedding of the rust-mcp-server repository (an MCP server over
JSON-RPC 2.0 on stdio): the tool registry (`src/tools.rs`), the protocol
engine (`src/mcp.rs`) and the transport loop (`src/server.rs`).

JSON values are modelled by the inductive `Json`; numbers are modelled as
`Int` (the claims only inspect integer ids, error codes and byte sizes).
Rust `Result<T, anyhow::Error>` is modelled as `Except String T`.
Operating-system effects of the built-in tools (spawning a command,
reading a directory or a file, the hostname) are gathered in an explicit
environment `OsEnv` passed to every tool handler; a handler is otherwise
the pure function written in `src/tools.rs`.

The module `src/types.rs` is declared in `main.rs` but absent from the
repository, so the plain data types it must contain (the JSON-RPC
envelope structs, the error constructors with the standard codes, the
initialize/tool-call payload structs and their serde field names) are
modelled from the spec where noted; everything else is translated
directly from the source files.
-/

/-- JSON value. Numbers are modelled as integers. -/
inductive Json where
  | null : Json
  | bool (b : Bool) : Json
  | num (n : Int) : Json
  | str (s : String) : Json
  | arr (xs : List Json) : Json
  | obj (fields : List (String × Json)) : Json
deriving Repr

/-- Look up a field of a JSON object (first match); `none` on non-objects. -/
def Json.getField : Json → String → Option Json
  | .obj fields, k => go fields k
  | _, _ => none
where go : List (String × Json) → String → Option Json
  | [], _ => none
  | (k', v) :: t, k => if k' = k then some v else go t k

/-- Rust `Value::as_str`. -/
def Json.asStr : Json → Option String
  | .str s => some s
  | _ => none

/-- Rust `Value::as_u64`: a non-negative integer. -/
def Json.asNat : Json → Option Nat
  | .num n => if 0 ≤ n then some n.toNat else none
  | _ => none

/-- Rust `Value::as_array`. -/
def Json.asArr : Json → Option (List Json)
  | .arr xs => some xs
  | _ => none

/-- Modelled from the spec: the JSON-RPC error object of the missing
`types.rs` (`integer code, string message, optional data`). -/
structure JsonRpcError where
  code : Int
  message : String
  data : Option Json := none
deriving Repr

/-- Modelled from the spec: `-32700 parse error`. -/
def JsonRpcError.parse_error : JsonRpcError := ⟨-32700, "Parse error", none⟩

/-- Modelled from the spec: `-32600 invalid request`. -/
def JsonRpcError.invalid_request : JsonRpcError := ⟨-32600, "Invalid request", none⟩

/-- Modelled from the spec: `-32601 method not found`. -/
def JsonRpcError.method_not_found : JsonRpcError := ⟨-32601, "Method not found", none⟩

/-- Modelled from the spec: `-32602 invalid params`. -/
def JsonRpcError.invalid_params : JsonRpcError := ⟨-32602, "Invalid params", none⟩

/-- Modelled from the spec: `-32603 internal error`. -/
def JsonRpcError.internal_error : JsonRpcError := ⟨-32603, "Internal error", none⟩

/-- Modelled from the spec: the request envelope of the missing `types.rs`:
`jsonrpc`, `method`, optional `params`, optional `id` (absence of `id`
marks a notification). -/
structure JsonRpcRequest where
  jsonrpc : String
  id : Option Json
  method : String
  params : Option Json
deriving Repr

/-- Modelled from the spec: the response envelope of the missing `types.rs`:
`jsonrpc`, `id` (echoes the request's, or null), `result` or `error`. -/
structure JsonRpcResponse where
  jsonrpc : String
  id : Option Json
  result : Option Json
  error : Option JsonRpcError
deriving Repr

/-- Modelled from the spec: `CallToolRequest` of the missing `types.rs`
(`tools/call` params: required `name`, optional `arguments`). -/
structure CallToolRequest where
  name : String
  arguments : Option Json
deriving Repr

/-- A content part of a tool result; the source only ever constructs
`ToolContent::Text { text }`. -/
inductive ToolContent where
  | text (text : String) : ToolContent
deriving Repr, DecidableEq

/-- Modelled from the spec: `CallToolResponse` of the missing `types.rs`
(`content` list plus optional `isError`). -/
structure CallToolResponse where
  content : List ToolContent
  is_error : Option Bool
deriving Repr, DecidableEq

/-- Modelled from the spec: the tool descriptor of the missing `types.rs`
(`name`, `description`, `inputSchema`). -/
structure Tool where
  name : String
  description : String
  input_schema : Json
deriving Repr

/-- Output of a spawned command, as observed by `ExecuteCommandTool`
(`std::process::Output` restricted to what the source reads). -/
structure CmdOutput where
  stdout : String
  stderr : String
  success : Bool
deriving Repr

/-- The operating-system effects used by the built-in tools, passed
explicitly: command execution, directory listing (entry name and whether
it is a directory), file metadata length, file contents, and the static
system identifiers. -/
structure OsEnv where
  exec : String → List String → Except String CmdOutput
  readDir : String → Except String (List (String × Bool))
  metaLen : String → Except String Nat
  readToString : String → Except String String
  os : String
  arch : String
  hostname : String

/-- The handler capability set (trait `ToolHandler` in `src/tools.rs`):
a description, an input schema, and a fallible invoke operation. -/
structure ToolHandler where
  description : String
  inputSchema : Json
  call : OsEnv → Json → Except String CallToolResponse

/-- Embeds `EchoTool::call` from `src/tools.rs`. -/
def EchoTool : ToolHandler where
  description := "Echo back the provided text"
  inputSchema := .obj [("type", .str "object"),
    ("properties", .obj [("text", .obj [("type", .str "string"),
      ("description", .str "Text to echo back")])]),
    ("required", .arr [.str "text"])]
  call := fun _ args =>
    let text := ((args.getField "text").bind Json.asStr).getD "No text provided"
    .ok { content := [.text ("Echo: " ++ text)], is_error := none }

/-- Embeds `SystemInfoTool::call` from `src/tools.rs`. -/
def SystemInfoTool : ToolHandler where
  description := "Get basic system information"
  inputSchema := .obj [("type", .str "object"), ("properties", .obj []),
    ("additionalProperties", .bool false)]
  call := fun env _ =>
    .ok { content := [.text ("System Information:\n- OS: " ++ env.os ++
            "\n- Architecture: " ++ env.arch ++ "\n- Hostname: " ++ env.hostname)],
          is_error := none }

/-- Embeds `ListFilesTool::call` from `src/tools.rs`. -/
def ListFilesTool : ToolHandler where
  description := "List files in a directory"
  inputSchema := .obj [("type", .str "object"),
    ("properties", .obj [("path", .obj [("type", .str "string"),
      ("description", .str "Directory path to list"), ("default", .str ".")])])]
  call := fun env args =>
    let path := ((args.getField "path").bind Json.asStr).getD "."
    match env.readDir path with
    | .ok entries =>
        let files := entries.map (fun e =>
          e.1 ++ " (" ++ (if e.2 then "directory" else "file") ++ ")")
        let result := if files.isEmpty then "Directory is empty"
          else "Files in " ++ path ++ ":\n" ++ String.intercalate "\n" files
        .ok { content := [.text result], is_error := none }
    | .error e =>
        .ok { content := [.text ("Error listing directory: " ++ e)],
              is_error := some true }

/-- Embeds `ReadFileTool::call` from `src/tools.rs`. -/
def ReadFileTool : ToolHandler where
  description := "Read the contents of a file"
  inputSchema := .obj [("type", .str "object"),
    ("properties", .obj [
      ("path", .obj [("type", .str "string"),
        ("description", .str "Path to the file to read")]),
      ("max_size", .obj [("type", .str "integer"),
        ("description", .str "Maximum file size to read in bytes"),
        ("default", .num 1048576)])]),
    ("required", .arr [.str "path"])]
  call := fun env args =>
    match (args.getField "path").bind Json.asStr with
    | none => .error "Path is required"
    | some path =>
      let max_size := ((args.getField "max_size").bind Json.asNat).getD 1048576
      match env.metaLen path with
      | .ok len =>
          if len > max_size then
            .ok { content := [.text ("File is too large (" ++ toString len ++
                    " bytes, max: " ++ toString max_size ++ " bytes)")],
                  is_error := some true }
          else
            match env.readToString path with
            | .ok content =>
                .ok { content := [.text ("Contents of " ++ path ++ ":\n" ++ content)],
                      is_error := none }
            | .error e =>
                .ok { content := [.text ("Error reading file: " ++ e)],
                      is_error := some true }
      | .error e =>
          .ok { content := [.text ("Error accessing file: " ++ e)],
                is_error := some true }

/-- The allow-list of `ExecuteCommandTool::call` in `src/tools.rs`. -/
def allowed_commands : List String :=
  ["echo", "date", "whoami", "pwd", "ls", "cat", "head", "tail", "wc"]

/-- Embeds `ExecuteCommandTool::call` from `src/tools.rs`: rejects commands off
the allow-list with a tool-level error; otherwise spawns the command. -/
def ExecuteCommandTool : ToolHandler where
  description := "Execute a safe system command (restricted for security)"
  inputSchema := .obj [("type", .str "object"),
    ("properties", .obj [
      ("command", .obj [("type", .str "string"),
        ("description", .str "Command to execute")]),
      ("args", .obj [("type", .str "array"),
        ("items", .obj [("type", .str "string")]),
        ("description", .str "Command arguments")])]),
    ("required", .arr [.str "command"])]
  call := fun env args =>
    match (args.getField "command").bind Json.asStr with
    | none => .error "Command is required"
    | some command =>
      if command ∉ allowed_commands then
        .ok { content := [.text ("Command '" ++ command ++
                "' is not allowed. Allowed commands: " ++
                String.intercalate ", " allowed_commands)],
              is_error := some true }
      else
        let cmd_args : List String :=
          (((args.getField "args").bind Json.asArr).map
            (fun arr => arr.filterMap Json.asStr)).getD []
        match env.exec command cmd_args with
        | .ok output =>
            let result := if output.stderr ≠ "" then
                "Command: " ++ command ++ " " ++ String.intercalate " " cmd_args ++
                "\nSTDOUT:\n" ++ output.stdout ++ "\nSTDERR:\n" ++ output.stderr
              else
                "Command: " ++ command ++ " " ++ String.intercalate " " cmd_args ++
                "\nOutput:\n" ++ output.stdout
            .ok { content := [.text result],
                  is_error := if output.success then none else some true }
        | .error e =>
            .ok { content := [.text ("Error executing command: " ++ e)],
                  is_error := some true }

/-- The tool registry of `src/tools.rs`: a `HashMap<String, Box<dyn
ToolHandler>>`, modelled as an association list with HashMap insert
semantics (`insertAssoc` below). -/
structure ToolRegistry where
  tools : List (String × ToolHandler)

/-- HashMap insert: replace the value under an existing key in place,
otherwise add the new binding. -/
def insertAssoc {α : Type} : List (String × α) → String → α → List (String × α)
  | [], k, v => [(k, v)]
  | (k', v') :: t, k, v =>
      if k' = k then (k, v) :: t else (k', v') :: insertAssoc t k v

/-- HashMap lookup on the association list. -/
def lookupAssoc {α : Type} : List (String × α) → String → Option α
  | [], _ => none
  | (k', v) :: t, k => if k' = k then some v else lookupAssoc t k

/-- Embeds `ToolRegistry::register_tool` from `src/tools.rs`:
`self.tools.insert(name.to_string(), handler)` — a plain HashMap insert. -/
def ToolRegistry.register_tool (r : ToolRegistry) (name : String)
    (handler : ToolHandler) : ToolRegistry :=
  { tools := insertAssoc r.tools name handler }

/-- The names present in the registry. -/
def ToolRegistry.names (r : ToolRegistry) : List String :=
  r.tools.map Prod.fst

/-- Embeds `ToolRegistry::new` from `src/tools.rs`: starts empty and registers the
five built-in tools. -/
def ToolRegistry.new : ToolRegistry :=
  ((((({ tools := [] } : ToolRegistry).register_tool "echo" EchoTool).register_tool
    "get_system_info" SystemInfoTool).register_tool
    "list_files" ListFilesTool).register_tool
    "read_file" ReadFileTool).register_tool
    "execute_command" ExecuteCommandTool

/-- Embeds `ToolRegistry::list_tools` from `src/tools.rs`. -/
def ToolRegistry.list_tools (r : ToolRegistry) : List Tool :=
  r.tools.map (fun p => { name := p.1, description := p.2.description,
                          input_schema := p.2.inputSchema })

/-- Embeds `ToolRegistry::call_tool` from `src/tools.rs`: dispatch to the handler;
for an absent name, a tool-level error naming the tool (not a JSON-RPC
error). Arguments default to the empty object. -/
def ToolRegistry.call_tool (r : ToolRegistry) (env : OsEnv)
    (request : CallToolRequest) : Except String CallToolResponse :=
  match lookupAssoc r.tools request.name with
  | some handler => handler.call env (request.arguments.getD (.obj []))
  | none =>
      .ok { content := [.text ("Tool '" ++ request.name ++ "' not found")],
            is_error := some true }

/-- Modelled from the spec: `ClientInfo` of the missing `types.rs`
(`clientInfo: {name, version}`). -/
structure ClientInfo where
  name : String
  version : String
deriving Repr

/-- Modelled from the spec: `InitializeRequest` of the missing `types.rs`
(`params: {protocolVersion, capabilities, clientInfo: {name, version}}`). -/
structure InitializeRequest where
  protocol_version : String
  capabilities : Json
  client_info : ClientInfo
deriving Repr

/-- Modelled from the spec: serde deserialization of `InitializeRequest`
from the params value — the three fields are required, `clientInfo` holds
`name` and `version` strings. -/
def parseInitializeRequest (j : Json) : Except String InitializeRequest :=
  match (j.getField "protocolVersion").bind Json.asStr with
  | none => .error "missing field protocolVersion"
  | some pv =>
    match j.getField "capabilities" with
    | none => .error "missing field capabilities"
    | some caps =>
      match j.getField "clientInfo" with
      | none => .error "missing field clientInfo"
      | some ci =>
        match (ci.getField "name").bind Json.asStr,
              (ci.getField "version").bind Json.asStr with
        | some n, some v =>
            .ok { protocol_version := pv, capabilities := caps,
                  client_info := { name := n, version := v } }
        | _, _ => .error "invalid clientInfo"

/-- Modelled from the spec: serde deserialization of `CallToolRequest`
from the params value — `name` is a required string, `arguments` optional. -/
def parseCallToolRequest (j : Json) : Except String CallToolRequest :=
  match (j.getField "name").bind Json.asStr with
  | none => .error "missing field name"
  | some n => .ok { name := n, arguments := j.getField "arguments" }

/-- Modelled from the spec: serde serialization of `InitializeResponse` in
`handle_initialize` — `{protocolVersion, capabilities: {tools:
{listChanged: false}}, serverInfo: {name, version}}` (the `resources`,
`prompts` and `logging` capabilities are `None` and omitted). -/
def initializeResponseJson (protocolVersion name version : String) : Json :=
  .obj [("protocolVersion", .str protocolVersion),
        ("capabilities", .obj [("tools", .obj [("listChanged", .bool false)])]),
        ("serverInfo", .obj [("name", .str name), ("version", .str version)])]

/-- Modelled from the spec: serde serialization of one tool descriptor in
`ListToolsResponse` (scenario 3: keys `name`, `description`, `inputSchema`). -/
def toolJson (t : Tool) : Json :=
  .obj [("name", .str t.name), ("description", .str t.description),
        ("inputSchema", t.input_schema)]

/-- Modelled from the spec: serde serialization of `ToolContent::Text`. -/
def toolContentJson : ToolContent → Json
  | .text t => .obj [("type", .str "text"), ("text", .str t)]

/-- Modelled from the spec: serde serialization of `CallToolResponse`
(`content` list, `isError` omitted when `None`). -/
def callToolResponseJson (r : CallToolResponse) : Json :=
  match r.is_error with
  | none => .obj [("content", .arr (r.content.map toolContentJson))]
  | some b => .obj [("content", .arr (r.content.map toolContentJson)),
                    ("isError", .bool b)]

/-- Embeds `McpServer` from `src/mcp.rs`. -/
structure McpServer where
  name : String
  version : String
  protocol_version : String
  initialized : Bool
  tool_registry : ToolRegistry

/-- Embeds `McpServer::new` from `src/mcp.rs`. -/
def McpServer.new (name version : String) : McpServer :=
  { name := name, version := version, protocol_version := "2024-11-05",
    initialized := false, tool_registry := ToolRegistry.new }

/-- Embeds `McpServer::handle_initialize` from `src/mcp.rs`: requires params,
parses them, sets `initialized := true` and returns the capabilities
payload. Returns the possibly-updated server alongside the result. -/
def McpServer.handle_initialize (s : McpServer) (params : Option Json) :
    Except String Json × McpServer :=
  match params with
  | none => (.error "Initialize request requires parameters", s)
  | some p =>
    match parseInitializeRequest p with
    | .error e => (.error e, s)
    | .ok _ =>
        (.ok (initializeResponseJson s.protocol_version s.name s.version),
         { s with initialized := true })

/-- Embeds `McpServer::handle_initialized` from `src/mcp.rs`: logs and returns
`Value::Null`. -/
def McpServer.handle_initialized (_ : McpServer) : Except String Json :=
  .ok .null

/-- Embeds `McpServer::handle_list_tools` from `src/mcp.rs`: errs when not
initialized, otherwise enumerates the registry. -/
def McpServer.handle_list_tools (s : McpServer) : Except String Json :=
  if !s.initialized then .error "Server not initialized"
  else .ok (.obj [("tools", .arr (s.tool_registry.list_tools.map toolJson))])

/-- Embeds `McpServer::handle_call_tool` from `src/mcp.rs`: errs when not
initialized, requires params, parses them and dispatches to the registry. -/
def McpServer.handle_call_tool (s : McpServer) (env : OsEnv)
    (params : Option Json) : Except String Json :=
  if !s.initialized then .error "Server not initialized"
  else
    match params with
    | none => .error "Tool call request requires parameters"
    | some p =>
      match parseCallToolRequest p with
      | .error e => .error e
      | .ok req =>
        match s.tool_registry.call_tool env req with
        | .error e => .error e
        | .ok resp => .ok (callToolResponseJson resp)

/-- Embeds `McpServer::handle_ping` from `src/mcp.rs`. -/
def McpServer.handle_ping (_ : McpServer) : Except String Json :=
  .ok (.obj [("pong", .bool true)])

/-- Embeds `McpServer::handle_list_resources` from `src/mcp.rs`: always the empty
list (not gated on initialization). -/
def McpServer.handle_list_resources (_ : McpServer) : Except String Json :=
  .ok (.obj [("resources", .arr [])])

/-- Embeds `McpServer::handle_list_prompts` from `src/mcp.rs`: always the empty
list (not gated on initialization). -/
def McpServer.handle_list_prompts (_ : McpServer) : Except String Json :=
  .ok (.obj [("prompts", .arr [])])

/-- The tail of `McpServer::handle_request`: fold the dispatched handler
outcome into a response envelope — `Ok(value)` becomes a result response,
`Err(e)` becomes an internal-error response; both carry the request's id. -/
def foldHandlerResult (r : Except String Json × McpServer) (id : Option Json) :
    Except String (Option JsonRpcResponse × McpServer) :=
  match r.1 with
  | .ok value =>
      .ok (some { jsonrpc := "2.0", id := id, result := some value,
                  error := none }, r.2)
  | .error _ =>
      .ok (some { jsonrpc := "2.0", id := id, result := none,
                  error := some JsonRpcError.internal_error }, r.2)

/-- Embeds `McpServer::handle_request` from `src/mcp.rs`: dispatch on the method
name; an unknown method returns a method-not-found response directly.
`src/mcp.rs` declares the return type `Result<JsonRpcResponse>` while both
of its callers (`process_message` in `src/server.rs` and the integration
tests) unwrap a `Result<Option<JsonRpcResponse>>`; the embedding uses the
callers' type, with every branch of the `src/mcp.rs` body producing
`Ok(Some(response))` exactly as written there. -/
def McpServer.handle_request (s : McpServer) (env : OsEnv)
    (request : JsonRpcRequest) :
    Except String (Option JsonRpcResponse × McpServer) :=
  match request.method with
  | "initialize" => foldHandlerResult (s.handle_initialize request.params) request.id
  | "initialized" => foldHandlerResult (s.handle_initialized, s) request.id
  | "tools/list" => foldHandlerResult (s.handle_list_tools, s) request.id
  | "tools/call" => foldHandlerResult (s.handle_call_tool env request.params, s) request.id
  | "resources/list" => foldHandlerResult (s.handle_list_resources, s) request.id
  | "prompts/list" => foldHandlerResult (s.handle_list_prompts, s) request.id
  | "ping" => foldHandlerResult (s.handle_ping, s) request.id
  | _ =>
      .ok (some { jsonrpc := "2.0", id := request.id, result := none,
                  error := some JsonRpcError.method_not_found }, s)

/-- Embeds `StdioServer::process_message` from `src/server.rs`, parameterized by
the external `serde_json::from_str` deserializer (`parse`; `none` models a
serde parse failure): parse failure yields a parse-error response with
null id; a wrong `jsonrpc` yields an invalid-request response; otherwise
the request goes to the engine, whose `Err` case (the engine-error branch)
yields an internal-error response with null id. -/
def processMessage (parse : List Char → Option JsonRpcRequest) (env : OsEnv)
    (s : McpServer) (message : List Char) :
    Option JsonRpcResponse × McpServer :=
  match parse message with
  | none =>
      (some { jsonrpc := "2.0", id := none, result := none,
              error := some JsonRpcError.parse_error }, s)
  | some request =>
    if request.jsonrpc ≠ "2.0" then
      (some { jsonrpc := "2.0", id := request.id, result := none,
              error := some JsonRpcError.invalid_request }, s)
    else
      match s.handle_request env request with
      | .ok (some response, s') => (some response, s')
      | .ok (none, s') => (none, s')
      | .error _ =>
          (some { jsonrpc := "2.0", id := none, result := none,
                  error := some JsonRpcError.internal_error }, s)

/-- Rust `str::trim` on a line modelled as a character list: strip leading
and trailing whitespace. -/
def trimChars (l : List Char) : List Char :=
  ((l.dropWhile Char.isWhitespace).reverse.dropWhile Char.isWhitespace).reverse

/-- The read loop of `StdioServer::run` from `src/server.rs`, with the
input stream modelled as the list of lines read: trim each line, skip
empty ones, hand the rest to `process_message`, and collect every emitted
response in order. The loop imposes no bound on a line's length. -/
def runLines (parse : List Char → Option JsonRpcRequest) (env : OsEnv) :
    McpServer → List (List Char) → List JsonRpcResponse × McpServer
  | s, [] => ([], s)
  | s, line :: rest =>
    let trimmed := trimChars line
    if trimmed.isEmpty then runLines parse env s rest
    else
      match processMessage parse env s trimmed with
      | (none, s') => runLines parse env s' rest
      | (some response, s') =>
          let (out, s'') := runLines parse env s' rest
          (response :: out, s'')

/-- The response component of an engine outcome. -/
def respOf (r : Except String (Option JsonRpcResponse × McpServer)) :
    Option JsonRpcResponse :=
  match r with
  | .ok (o, _) => o
  | .error _ => none

/-- The error object of the response of an engine outcome, when any. -/
def errOf (r : Except String (Option JsonRpcResponse × McpServer)) :
    Option JsonRpcError :=
  (respOf r).bind JsonRpcResponse.error

/-- A concrete environment in which every operating-system effect fails;
used to instantiate theorems at concrete inputs. -/
def env0 : OsEnv where
  exec := fun _ _ => .error "unavailable"
  readDir := fun _ => .error "unavailable"
  metaLen := fun _ => .error "unavailable"
  readToString := fun _ => .error "unavailable"
  os := "linux"
  arch := "x86_64"
  hostname := "host"

/-- Folding a dispatched handler outcome always yields `Ok(Some(response))`
whose envelope carries the given id and `jsonrpc = "2.0"`, and whose server
component is the one the handler returned. -/
theorem foldHandlerResult_ok (r : Except String Json × McpServer)
    (id : Option Json) :
    ∃ resp, foldHandlerResult r id = .ok (some resp, r.2) ∧
      resp.id = id ∧ resp.jsonrpc = "2.0" := by
  rcases r with ⟨x, s⟩
  cases x <;> exact ⟨_, rfl, rfl, rfl⟩

/-- C10: for every request envelope, `handle_request` returns successfully
(never an `Err` to its caller): every branch produces `Ok(Some(response))`
with the request's `id` and `jsonrpc = "2.0"` — so the engine-error branch
of `process_message` is unreachable — and a handler failure is folded into
a response carrying the internal-error code -32603. -/
theorem handle_request_never_errs :
    (∀ (s : McpServer) (env : OsEnv) (req : JsonRpcRequest),
      ∃ resp s', s.handle_request env req = .ok (some resp, s') ∧
        resp.id = req.id ∧ resp.jsonrpc = "2.0") ∧
    (∀ (r : Except String Json × McpServer) (id : Option Json) (e : String),
      r.1 = .error e →
        foldHandlerResult r id =
          .ok (some { jsonrpc := "2.0", id := id, result := none,
                      error := some JsonRpcError.internal_error }, r.2) ∧
        JsonRpcError.internal_error.code = -32603) := by
  constructor
  · intro s env req
    unfold McpServer.handle_request
    split
    all_goals
      first
      | (obtain ⟨resp, h1, h2, h3⟩ := foldHandlerResult_ok
           (s.handle_initialize req.params) req.id
         exact ⟨resp, _, h1, h2, h3⟩)
      | (obtain ⟨resp, h1, h2, h3⟩ := foldHandlerResult_ok
           (s.handle_initialized, s) req.id
         exact ⟨resp, _, h1, h2, h3⟩)
      | (obtain ⟨resp, h1, h2, h3⟩ := foldHandlerResult_ok
           (s.handle_list_tools, s) req.id
         exact ⟨resp, _, h1, h2, h3⟩)
      | (obtain ⟨resp, h1, h2, h3⟩ := foldHandlerResult_ok
           (s.handle_call_tool env req.params, s) req.id
         exact ⟨resp, _, h1, h2, h3⟩)
      | (obtain ⟨resp, h1, h2, h3⟩ := foldHandlerResult_ok
           (s.handle_list_resources, s) req.id
         exact ⟨resp, _, h1, h2, h3⟩)
      | (obtain ⟨resp, h1, h2, h3⟩ := foldHandlerResult_ok
           (s.handle_list_prompts, s) req.id
         exact ⟨resp, _, h1, h2, h3⟩)
      | (obtain ⟨resp, h1, h2, h3⟩ := foldHandlerResult_ok
           (s.handle_ping, s) req.id
         exact ⟨resp, _, h1, h2, h3⟩)
      | exact ⟨_, s, rfl, rfl, rfl⟩
  · intro r id e he
    rcases r with ⟨x, s⟩
    cases x with
    | ok v => simp at he
    | error e' => exact ⟨rfl, rfl⟩

/-- The `initialized` notification envelope (no `id`). -/
def initializedNotification : JsonRpcRequest :=
  { jsonrpc := "2.0", id := none, method := "initialized", params := none }

/-- C1: the code emits a response even for a notification. Handing the
`initialized` notification (which carries no `id`) to the transport loop's
`process_message` produces a response envelope (with null `id` and null
result) instead of none, contradicting the `notifications return None`
comments in `src/server.rs`: `handle_request` has no branch returning no
response. -/
theorem notification_still_answered :
    (processMessage (fun _ => some initializedNotification) env0
        (McpServer.new "rust-mcp-server" "0.1.0") "x".toList).1 =
      some { jsonrpc := "2.0", id := none, result := some .null,
             error := none } ∧
    initializedNotification.id = none :=
  ⟨rfl, rfl⟩

/-- C6: a `tools/list` request with an `id`, received while `initialized`
is false, is answered with a response carrying that same `id` and the
internal-error object, whose code is -32603. -/
theorem premature_list_internal_error (s : McpServer) (env : OsEnv)
    (v : String) (j : Json) (p : Option Json)
    (h : s.initialized = false) :
    respOf (s.handle_request env
        { jsonrpc := v, id := some j, method := "tools/list", params := p }) =
      some { jsonrpc := "2.0", id := some j, result := none,
             error := some JsonRpcError.internal_error } ∧
    JsonRpcError.internal_error.code = -32603 := by
  refine ⟨?_, rfl⟩
  simp [McpServer.handle_request, McpServer.handle_list_tools, h,
    foldHandlerResult, respOf]

/-- Witness for C6 at the freshly constructed server and request id 2. -/
theorem premature_list_internal_error_witness :
    (McpServer.new "rust-mcp-server" "0.1.0").initialized = false ∧
    (respOf ((McpServer.new "rust-mcp-server" "0.1.0").handle_request env0
        { jsonrpc := "2.0", id := some (.num 2), method := "tools/list",
          params := none }) =
      some { jsonrpc := "2.0", id := some (.num 2), result := none,
             error := some JsonRpcError.internal_error } ∧
     JsonRpcError.internal_error.code = -32603) :=
  ⟨rfl, premature_list_internal_error (McpServer.new "rust-mcp-server" "0.1.0")
    env0 "2.0" (.num 2) none rfl⟩

/-- C7: calling a tool whose name is absent from the registry yields a
successful (non-JSON-RPC-error) result with `isError = true` whose text
names the missing tool. -/
theorem call_missing_tool (r : ToolRegistry) (env : OsEnv)
    (req : CallToolRequest)
    (h : lookupAssoc r.tools req.name = none) :
    r.call_tool env req = .ok
      { content := [.text ("Tool '" ++ req.name ++ "' not found")],
        is_error := some true } := by
  simp [ToolRegistry.call_tool, h]

/-- Witness for C7: the built-in registry holds no tool named
`no_such_tool`. -/
theorem call_missing_tool_witness :
    ToolRegistry.new.call_tool env0 { name := "no_such_tool", arguments := none }
      = .ok { content := [.text "Tool 'no_such_tool' not found"],
              is_error := some true } :=
  call_missing_tool ToolRegistry.new env0
    { name := "no_such_tool", arguments := none } rfl

/-- C9: `execute_command` invoked with any command string off the
allow-list answers with a success envelope whose `isError` is true and
whose text lists the allowed commands — uniformly in the environment, and
its result never depends on the environment's `exec` component, so no
disallowed command is ever spawned. -/
theorem execute_command_disallowed (env : OsEnv) (args : Json)
    (command : String)
    (hc : (args.getField "command").bind Json.asStr = some command)
    (hna : command ∉ allowed_commands) :
    ExecuteCommandTool.call env args = .ok
      { content := [.text ("Command '" ++ command ++
          "' is not allowed. Allowed commands: " ++
          String.intercalate ", " allowed_commands)],
        is_error := some true } ∧
    (∀ env' : OsEnv, ExecuteCommandTool.call env' args =
      ExecuteCommandTool.call env args) := by
  constructor
  · simp [ExecuteCommandTool, hc, hna]
  · intro env'
    simp [ExecuteCommandTool, hc, hna]

/-- Witness for C9 at the disallowed command `rm`. -/
theorem execute_command_disallowed_witness :
    ((.obj [("command", .str "rm")] : Json).getField "command").bind Json.asStr
        = some "rm" ∧
    "rm" ∉ allowed_commands ∧
    ExecuteCommandTool.call env0 (.obj [("command", .str "rm")]) = .ok
      { content := [.text ("Command 'rm' is not allowed. Allowed commands: " ++
          String.intercalate ", " allowed_commands)],
        is_error := some true } :=
  ⟨rfl, by decide,
   (execute_command_disallowed env0 (.obj [("command", .str "rm")]) "rm"
      rfl (by decide)).1⟩

/-- C2 counterexample: on a fresh (uninitialized) server, a
`resources/list` request — a method other than `initialize` and `ping` —
is answered with a success response, not an error response, because
`handle_list_resources` is not gated on `initialized`. -/
theorem premature_resources_list_not_error :
    (McpServer.new "rust-mcp-server" "0.1.0").initialized = false ∧
    errOf ((McpServer.new "rust-mcp-server" "0.1.0").handle_request env0
      { jsonrpc := "2.0", id := some (.num 7), method := "resources/list",
        params := none }) = none :=
  ⟨rfl, rfl⟩

/-- C2 amended: before initialization, `tools/list` and `tools/call` are
answered with the internal-error response, while `ping`, `resources/list`,
`prompts/list` and the `initialized` method succeed, as does `initialize`
itself when its params are well formed — only the two tools methods are
gated on the lifecycle bit. -/
theorem lifecycle_gating (s : McpServer) (env : OsEnv) (req : JsonRpcRequest)
    (hinit : s.initialized = false) :
    ((req.method = "tools/list" ∨ req.method = "tools/call") →
      errOf (s.handle_request env req) = some JsonRpcError.internal_error) ∧
    ((req.method = "ping" ∨ req.method = "resources/list" ∨
      req.method = "prompts/list" ∨ req.method = "initialized") →
      errOf (s.handle_request env req) = none) ∧
    (∀ (p : Json) (r : InitializeRequest), req.method = "initialize" →
      req.params = some p → parseInitializeRequest p = .ok r →
      errOf (s.handle_request env req) = none) := by
  refine ⟨?_, ?_, ?_⟩
  · rintro (h | h) <;>
      simp [McpServer.handle_request, h, McpServer.handle_list_tools,
        McpServer.handle_call_tool, hinit, foldHandlerResult, errOf, respOf]
  · rintro (h | h | h | h) <;>
      simp [McpServer.handle_request, h, McpServer.handle_ping,
        McpServer.handle_list_resources, McpServer.handle_list_prompts,
        McpServer.handle_initialized, foldHandlerResult, errOf, respOf]
  · intro p r hm hp hpar
    simp [McpServer.handle_request, hm, McpServer.handle_initialize, hp,
      hpar, foldHandlerResult, errOf, respOf]

/-- Witness for C2 amended: a premature `tools/list` on the fresh server
gets the internal-error response. -/
theorem lifecycle_gating_witness :
    (McpServer.new "rust-mcp-server" "0.1.0").initialized = false ∧
    errOf ((McpServer.new "rust-mcp-server" "0.1.0").handle_request env0
      { jsonrpc := "2.0", id := some (.num 2), method := "tools/list",
        params := none }) = some JsonRpcError.internal_error :=
  ⟨rfl,
   (lifecycle_gating (McpServer.new "rust-mcp-server" "0.1.0") env0
      { jsonrpc := "2.0", id := some (.num 2), method := "tools/list",
        params := none } rfl).1 (Or.inl rfl)⟩

/-- An `initialize` request that carries no params. -/
def initializeNoParams : JsonRpcRequest :=
  { jsonrpc := "2.0", id := some (.num 1), method := "initialize",
    params := none }

/-- C3 counterexample: `initialize` with `params` absent is answered with
error code -32603 (the handler's `Err` is folded into the internal-error
response by `handle_request`), not -32602 as the claim states. -/
theorem missing_params_not_invalid_params :
    (errOf ((McpServer.new "rust-mcp-server" "0.1.0").handle_request env0
      initializeNoParams)).map JsonRpcError.code = some (-32603) ∧
    JsonRpcError.invalid_params.code = -32602 ∧
    ((-32603 : Int) = -32602 → False) :=
  ⟨rfl, rfl, by decide⟩

/-- C3 amended: a request to a method that requires parameters
(`initialize`, `tools/call`) with `params` absent is answered with an
error response whose code is -32603 (internal error). -/
theorem missing_params_internal_error (s : McpServer) (env : OsEnv)
    (req : JsonRpcRequest) (hp : req.params = none)
    (hm : req.method = "initialize" ∨ req.method = "tools/call") :
    (errOf (s.handle_request env req)).map JsonRpcError.code
      = some (-32603) := by
  rcases hm with h | h
  · simp [McpServer.handle_request, h, McpServer.handle_initialize, hp,
      foldHandlerResult, errOf, respOf, JsonRpcError.internal_error]
  · cases hi : s.initialized <;>
      simp [McpServer.handle_request, h, McpServer.handle_call_tool, hp, hi,
        foldHandlerResult, errOf, respOf, JsonRpcError.internal_error]

/-- Witness for C3 amended: `tools/call` without params on the fresh
server is answered with code -32603. -/
theorem missing_params_internal_error_witness :
    ({ jsonrpc := "2.0", id := some (.num 9), method := "tools/call",
       params := none } : JsonRpcRequest).params = none ∧
    (errOf ((McpServer.new "rust-mcp-server" "0.1.0").handle_request env0
      { jsonrpc := "2.0", id := some (.num 9), method := "tools/call",
        params := none })).map JsonRpcError.code = some (-32603) :=
  ⟨rfl,
   missing_params_internal_error (McpServer.new "rust-mcp-server" "0.1.0")
     env0 { jsonrpc := "2.0", id := some (.num 9), method := "tools/call",
            params := none } rfl (Or.inr rfl)⟩

/-- Looking up the key just inserted finds the just-inserted value. -/
theorem lookupAssoc_insertAssoc {α : Type} (l : List (String × α))
    (k : String) (v : α) : lookupAssoc (insertAssoc l k v) k = some v := by
  induction l with
  | nil => simp [insertAssoc, lookupAssoc]
  | cons hd t ih =>
      rcases hd with ⟨k', v'⟩
      by_cases hk : k' = k
      · simp [insertAssoc, hk, lookupAssoc]
      · simp [insertAssoc, hk, lookupAssoc, ih]

/-- Membership in the key set after a HashMap insert. -/
theorem mem_keys_insertAssoc {α : Type} (l : List (String × α))
    (k : String) (v : α) (x : String) :
    x ∈ (insertAssoc l k v).map Prod.fst ↔
      x ∈ l.map Prod.fst ∨ x = k := by
  induction l with
  | nil => simp [insertAssoc]
  | cons hd t ih =>
      rcases hd with ⟨k', v'⟩
      by_cases hk : k' = k
      · subst hk
        simp [insertAssoc]
        tauto
      · simp [insertAssoc, hk, ih]
        tauto

/-- A HashMap insert preserves distinctness of the keys. -/
theorem nodup_keys_insertAssoc {α : Type} (l : List (String × α))
    (k : String) (v : α) (hl : (l.map Prod.fst).Nodup) :
    ((insertAssoc l k v).map Prod.fst).Nodup := by
  induction l with
  | nil => simp [insertAssoc]
  | cons hd t ih =>
      rcases hd with ⟨k', v'⟩
      simp only [List.map_cons, List.nodup_cons] at hl
      rcases hl with ⟨hk', ht⟩
      by_cases hk : k' = k
      · subst hk
        have hins : insertAssoc ((k', v') :: t) k' v = (k', v) :: t := by
          simp [insertAssoc]
        rw [hins]
        simp only [List.map_cons, List.nodup_cons]
        exact ⟨hk', ht⟩
      · simp only [insertAssoc, if_neg hk, List.map_cons, List.nodup_cons]
        refine ⟨?_, ih ht⟩
        intro hmem
        rcases (mem_keys_insertAssoc t k v k').mp hmem with h | h
        · exact hk' h
        · exact hk h

/-- A tool handler distinguishable from every built-in one. -/
def replacementHandler : ToolHandler where
  description := "replacement"
  inputSchema := .null
  call := fun _ _ => .error "replacement"

/-- C4 counterexample: registering a second handler under the
already-present name `echo` is not rejected — `register_tool` is a plain
HashMap insert, so the second registration silently takes effect,
replacing the built-in echo handler. -/
theorem duplicate_registration_not_rejected :
    (lookupAssoc ToolRegistry.new.tools "echo").map ToolHandler.description
      = some "Echo back the provided text" ∧
    (lookupAssoc (ToolRegistry.new.register_tool "echo"
        replacementHandler).tools "echo").map ToolHandler.description
      = some "replacement" :=
  ⟨rfl, rfl⟩

/-- C4 amended: registering under an existing name is not rejected but
silently replaces the earlier handler (the last registration under a name
is the one in effect), and tool names stay unique: a registration
preserves distinctness of the registry's names, and the names of the
built-in registry are distinct. -/
theorem registration_replaces_and_names_unique :
    (∀ (r : ToolRegistry) (name : String) (h : ToolHandler),
      lookupAssoc (r.register_tool name h).tools name = some h) ∧
    (∀ (r : ToolRegistry) (name : String) (h : ToolHandler),
      r.names.Nodup → (r.register_tool name h).names.Nodup) ∧
    ToolRegistry.new.names.Nodup := by
  refine ⟨?_, ?_, ?_⟩
  · intro r name h
    exact lookupAssoc_insertAssoc r.tools name h
  · intro r name h hn
    exact nodup_keys_insertAssoc r.tools name h hn
  · have hnames : ToolRegistry.new.names =
        ["echo", "get_system_info", "list_files", "read_file",
         "execute_command"] := rfl
    rw [hnames]
    decide

/-- Witness for C4 amended: registering a sixth tool under a fresh name on
the built-in registry makes it retrievable and keeps the names distinct. -/
theorem registration_replaces_witness :
    lookupAssoc (ToolRegistry.new.register_tool "extra"
      replacementHandler).tools "extra" = some replacementHandler ∧
    (ToolRegistry.new.register_tool "extra" replacementHandler).names.Nodup :=
  ⟨registration_replaces_and_names_unique.1 ToolRegistry.new "extra"
     replacementHandler,
   registration_replaces_and_names_unique.2.1 ToolRegistry.new "extra"
     replacementHandler
     (by
       have hnames : ToolRegistry.new.names =
           ["echo", "get_system_info", "list_files", "read_file",
            "execute_command"] := rfl
       rw [hnames]
       decide)⟩

/-- Folding a handler outcome never changes the server beyond what the
handler itself returned. -/
theorem foldHandlerResult_state (r : Except String Json × McpServer)
    (id : Option Json) (o : Option JsonRpcResponse) (s' : McpServer)
    (h : foldHandlerResult r id = .ok (o, s')) : s' = r.2 := by
  rcases r with ⟨x, s⟩
  cases x <;> simp [foldHandlerResult] at h <;> exact h.2.symm

/-- An `initialize` dispatch leaves the server unchanged or exactly sets
the `initialized` bit. -/
theorem handle_initialize_state (s : McpServer) (p : Option Json) :
    (s.handle_initialize p).2 = s ∨
      (s.handle_initialize p).2 = { s with initialized := true } := by
  unfold McpServer.handle_initialize
  rcases p with _ | p
  · exact Or.inl rfl
  · rcases hpar : parseInitializeRequest p with e | r
    · simp [hpar]
    · simp [hpar]

/-- C8: a successful `initialize` (well-formed params) answers with a
result response and sets `initialized` to true; the result payload carries
the server's `protocolVersion`, `capabilities.tools.listChanged = false`
and `serverInfo` with the server's name and version; and no operation of
the engine ever resets `initialized` back to false. -/
theorem initialize_sets_and_keeps_initialized :
    (∀ (s : McpServer) (env : OsEnv) (idv : Option Json) (v : String)
       (p : Json) (r : InitializeRequest),
      parseInitializeRequest p = .ok r →
      (s.handle_request env
          { jsonrpc := v, id := idv, method := "initialize",
            params := some p }) =
        .ok (some
          { jsonrpc := "2.0", id := idv,
            result := some (initializeResponseJson s.protocol_version s.name
              s.version),
            error := none },
          { s with initialized := true }) ∧
      (initializeResponseJson s.protocol_version s.name s.version).getField
          "protocolVersion" = some (.str s.protocol_version) ∧
      (((initializeResponseJson s.protocol_version s.name s.version).getField
          "capabilities").bind (fun c => (c.getField "tools").bind
            (fun t => t.getField "listChanged"))) = some (.bool false) ∧
      (initializeResponseJson s.protocol_version s.name s.version).getField
          "serverInfo" =
        some (.obj [("name", .str s.name), ("version", .str s.version)])) ∧
    (∀ (s : McpServer) (env : OsEnv) (req : JsonRpcRequest)
       (o : Option JsonRpcResponse) (s' : McpServer),
      s.handle_request env req = .ok (o, s') →
      s.initialized = true → s'.initialized = true) := by
  constructor
  · intro s env idv v p r hpar
    refine ⟨?_, rfl, rfl, rfl⟩
    simp [McpServer.handle_request, McpServer.handle_initialize, hpar,
      foldHandlerResult]
  · intro s env req o s' h hi
    unfold McpServer.handle_request at h
    split at h
    case _ =>
      have hs' := foldHandlerResult_state _ _ _ _ h
      rcases handle_initialize_state s req.params with h1 | h1
      · rw [hs', h1]; exact hi
      · rw [hs', h1]
    case _ => rw [foldHandlerResult_state _ _ _ _ h]; exact hi
    case _ => rw [foldHandlerResult_state _ _ _ _ h]; exact hi
    case _ => rw [foldHandlerResult_state _ _ _ _ h]; exact hi
    case _ => rw [foldHandlerResult_state _ _ _ _ h]; exact hi
    case _ => rw [foldHandlerResult_state _ _ _ _ h]; exact hi
    case _ => rw [foldHandlerResult_state _ _ _ _ h]; exact hi
    case _ =>
      simp at h
      rw [← h.2]
      exact hi

/-- Well-formed `initialize` params, as in the handshake scenario. -/
def goodInitParams : Json :=
  .obj [("protocolVersion", .str "2024-11-05"), ("capabilities", .obj []),
        ("clientInfo", .obj [("name", .str "c"), ("version", .str "1")])]

/-- Witness for C8: a concrete handshake on the fresh server, and a `ping`
on an initialized server leaving the bit set. -/
theorem initialize_sets_and_keeps_initialized_witness :
    parseInitializeRequest goodInitParams =
      .ok { protocol_version := "2024-11-05", capabilities := .obj [],
            client_info := { name := "c", version := "1" } } ∧
    ((McpServer.new "rust-mcp-server" "0.1.0").handle_request env0
        { jsonrpc := "2.0", id := some (.num 1), method := "initialize",
          params := some goodInitParams }) =
      .ok (some
        { jsonrpc := "2.0", id := some (.num 1),
          result := some (initializeResponseJson "2024-11-05"
            "rust-mcp-server" "0.1.0"),
          error := none },
        { McpServer.new "rust-mcp-server" "0.1.0" with initialized := true }) ∧
    ({ McpServer.new "rust-mcp-server" "0.1.0" with
        initialized := true } : McpServer).initialized = true :=
  ⟨rfl,
   ((initialize_sets_and_keeps_initialized.1
      (McpServer.new "rust-mcp-server" "0.1.0") env0 (some (.num 1)) "2.0"
      goodInitParams
      { protocol_version := "2024-11-05", capabilities := .obj [],
        client_info := { name := "c", version := "1" } } rfl).1),
   initialize_sets_and_keeps_initialized.2
     { McpServer.new "rust-mcp-server" "0.1.0" with initialized := true }
     env0
     { jsonrpc := "2.0", id := some (.num 5), method := "ping",
       params := none }
     (some { jsonrpc := "2.0", id := some (.num 5),
             result := some (.obj [("pong", .bool true)]), error := none })
     { McpServer.new "rust-mcp-server" "0.1.0" with initialized := true }
     rfl rfl⟩

/-- A line whose first and last characters are not whitespace is left
unchanged by trimming. -/
theorem trimChars_sandwich (a b : Char) (l : List Char)
    (ha : a.isWhitespace = false) (hb : b.isWhitespace = false) :
    trimChars (a :: (l ++ [b])) = a :: (l ++ [b]) := by
  unfold trimChars
  have h1 : (a :: (l ++ [b])).dropWhile Char.isWhitespace
      = a :: (l ++ [b]) := by
    simp [List.dropWhile_cons, ha]
  rw [h1]
  have h2 : (a :: (l ++ [b])).reverse = b :: (l.reverse ++ [a]) := by simp
  rw [h2]
  have h3 : (b :: (l.reverse ++ [a])).dropWhile Char.isWhitespace
      = b :: (l.reverse ++ [a]) := by
    simp [List.dropWhile_cons, hb]
  rw [h3, ← h2, List.reverse_reverse]

/-- Leading whitespace is dropped through a block of blanks. -/
theorem dropWhile_replicate_blank (k : Nat) (l : List Char) :
    (List.replicate k ' ' ++ l).dropWhile Char.isWhitespace
      = l.dropWhile Char.isWhitespace := by
  have hsp : (' ').isWhitespace = true := by decide
  induction k with
  | zero => simp
  | succ n ih => simp [List.replicate_succ, List.dropWhile_cons, hsp, ih]

/-- The ping request read from the oversized line below. -/
def pingRequest : JsonRpcRequest :=
  { jsonrpc := "2.0", id := some (.num 1), method := "ping", params := none }

/-- Interior of the oversized line: the body of a ping envelope followed
by sixteen million blanks (inside the braces, so trimming removes none of
them). -/
def bigLineMid : List Char :=
  ("\"jsonrpc\":\"2.0\",\"id\":1,\"method\":\"ping\"").toList ++
    List.replicate 16777300 ' '

/-- An input line of 16777340 characters — beyond 16 MiB — that is a valid
JSON-RPC ping envelope (whitespace before the closing brace is legal
JSON). -/
def bigLine : List Char := '{' :: (bigLineMid ++ ['}'])

/-- Stands for `serde_json::from_str` on the inputs used here: `bigLine`
is exactly the serialization of `pingRequest` padded with interior
whitespace, so the external parser yields `pingRequest` on it. -/
def parseBig : List Char → Option JsonRpcRequest := fun _ => some pingRequest

/-- The response the engine gives to `pingRequest`. -/
def pongResponse : JsonRpcResponse :=
  { jsonrpc := "2.0", id := some (.num 1),
    result := some (.obj [("pong", .bool true)]), error := none }

/-- C5 counterexample: the transport loop has no maximum line length. A
valid ping line longer than 16 MiB (16777216 bytes) is processed normally
and answered with the pong response, not with a single parse-error
response with null `id`: the emitted response has no `error` and a
non-null `id`. -/
theorem oversized_line_still_processed :
    16777216 < bigLine.length ∧
    (runLines parseBig env0 (McpServer.new "rust-mcp-server" "0.1.0")
        [bigLine]).1 = [pongResponse] ∧
    pongResponse.error = none ∧
    pongResponse.id ≠ none := by
  refine ⟨?_, ?_, rfl, by simp [pongResponse]⟩
  · have hlen : bigLine.length = 16777340 := by
      have hmid : ("\"jsonrpc\":\"2.0\",\"id\":1,\"method\":\"ping\"").toList.length
          = 38 := rfl
      rw [bigLine, List.length_cons, bigLineMid, List.length_append,
        List.length_append, hmid, List.length_replicate]
      rfl
    rw [hlen]
    norm_num
  · have ht : trimChars bigLine = bigLine :=
      trimChars_sandwich '{' '}' bigLineMid (by decide) (by decide)
    have hne : bigLine.isEmpty = false := rfl
    have hp : processMessage parseBig env0
        (McpServer.new "rust-mcp-server" "0.1.0") bigLine =
          (some pongResponse, McpServer.new "rust-mcp-server" "0.1.0") := rfl
    simp [runLines, ht, hne, hp]

/-- C5 amended: the transport loop imposes no maximum line length — the
handling of an input line depends only on its trimmed character content,
and in particular prepending any number of blanks (so, lines beyond any
fixed bound such as 16 MiB) leaves the loop's behavior unchanged; no
parse-error response is produced on account of length. -/
theorem line_handling_depends_only_on_trim :
    (∀ (parse : List Char → Option JsonRpcRequest) (env : OsEnv)
       (s : McpServer) (rest : List (List Char)) (line line' : List Char),
      trimChars line = trimChars line' →
      runLines parse env s (line :: rest)
        = runLines parse env s (line' :: rest)) ∧
    (∀ (parse : List Char → Option JsonRpcRequest) (env : OsEnv)
       (s : McpServer) (rest : List (List Char)) (line : List Char) (k : Nat),
      runLines parse env s ((List.replicate k ' ' ++ line) :: rest)
        = runLines parse env s (line :: rest)) := by
  have key : ∀ (parse : List Char → Option JsonRpcRequest) (env : OsEnv)
      (s : McpServer) (rest : List (List Char)) (line line' : List Char),
      trimChars line = trimChars line' →
      runLines parse env s (line :: rest)
        = runLines parse env s (line' :: rest) := by
    intro parse env s rest line line' h
    simp only [runLines]
    rw [h]
  refine ⟨key, ?_⟩
  intro parse env s rest line k
  apply key
  unfold trimChars
  rw [dropWhile_replicate_blank]

/-- Witness for C5 amended: a line and its blank-padded variant get the
same treatment from the loop. -/
theorem line_handling_depends_only_on_trim_witness :
    trimChars (" ping-line ".toList) = trimChars ("ping-line".toList) ∧
    runLines parseBig env0 (McpServer.new "rust-mcp-server" "0.1.0")
        [" ping-line ".toList]
      = runLines parseBig env0 (McpServer.new "rust-mcp-server" "0.1.0")
        ["ping-line".toList] :=
  ⟨rfl,
   line_handling_depends_only_on_trim.1 parseBig env0
     (McpServer.new "rust-mcp-server" "0.1.0") []
     (" ping-line ".toList) ("ping-line".toList) rfl⟩

/-- Witness for C10: an unknown method still gets `Ok(Some(response))`
with its id, and a concrete handler failure folds into the internal-error
response. -/
theorem handle_request_never_errs_witness :
    (∃ resp s', (McpServer.new "rust-mcp-server" "0.1.0").handle_request env0
        { jsonrpc := "2.0", id := some (.num 4),
          method := "nonexistent_method", params := none }
        = .ok (some resp, s') ∧
      resp.id = some (.num 4) ∧ resp.jsonrpc = "2.0") ∧
    (foldHandlerResult (.error "boom",
        McpServer.new "rust-mcp-server" "0.1.0") (some (.num 6)) =
      .ok (some { jsonrpc := "2.0", id := some (.num 6), result := none,
                  error := some JsonRpcError.internal_error },
           McpServer.new "rust-mcp-server" "0.1.0") ∧
      JsonRpcError.internal_error.code = -32603) :=
  ⟨handle_request_never_errs.1 (McpServer.new "rust-mcp-server" "0.1.0") env0
     { jsonrpc := "2.0", id := some (.num 4),
       method := "nonexistent_method", params := none },
   handle_request_never_errs.2
     (.error "boom", McpServer.new "rust-mcp-server" "0.1.0")
     (some (.num 6)) "boom" rfl⟩
